import Mathlib

set_option maxRecDepth 200000

/-!
Verification of the `scrow` repository: a shallow embedding in Lean 4 of the
Taproot escrow signing core (`src/sign.rs`) and the backend utilities
(`backend/src/util.rs`), together with theorems settling the stated
properties of those functions.

Conventions of the embedding:
* Rust `usize` arithmetic is modelled on `Nat` with an explicit
  reduction modulo `2 ^ 64` wherever the source can overflow.
* Fallible Rust operations are modelled with `Option` / `Except`;
  a Rust `panic!` / `expect` / `unwrap` on a failed operation is
  modelled as `Option.none` (the call produces no value).
* External cryptographic collaborators (the secp256k1 context, the
  BIP341 sighash engine of the `bitcoin` crate, the bech32 codec)
  are not part of the repository sources; they are modelled from the
  specification, symbolically where only data flow matters and
  bit-exactly where concrete values matter (bech32).
-/

namespace Scrow

/-- The `bitcoin::Network` enumeration (the variants used by `util.rs`). -/
inductive Network
  | bitcoin
  | testnet
  | signet
  | regtest
deriving DecidableEq

/-- Embedding of `days_to_blocks` (`backend/src/util.rs`): `days * 144` in
`usize` arithmetic, i.e. reduced modulo `2 ^ 64`. -/
def days_to_blocks (days : Nat) : Nat :=
  days * 144 % 2 ^ 64

/-- Embedding of `hours_to_blocks` (`backend/src/util.rs`): `hours * 6` in
`usize` arithmetic. -/
def hours_to_blocks (hours : Nat) : Nat :=
  hours * 6 % 2 ^ 64

/-- Embedding of `days_hours_to_blocks` (`backend/src/util.rs`):
`days_to_blocks(days) + hours_to_blocks(hours)` in `usize` arithmetic. -/
def days_hours_to_blocks (days hours : Nat) : Nat :=
  (days_to_blocks days + hours_to_blocks hours) % 2 ^ 64

/-- Embedding of `convert_network_to_typed` (`backend/src/util.rs`).
The Rust function panics on an unrecognized tag; the panic is modelled
as `none`. -/
def convert_network_to_typed (network : String) : Option Network :=
  if network = "Mainnet" then some Network.bitcoin
  else if network = "Testnet" then some Network.testnet
  else if network = "Signet" then some Network.signet
  else if network = "Mutinynet" then some Network.signet
  else none

/-- Modelled from the spec: value of one character of the bech32 data
alphabet `qpzry9x8gf2tvdw0s3jn54khce6mua7l` (the bech32 Key Codec is an
external collaborator, not part of the repository sources). -/
def bech32CharValue (c : Char) : Option Nat :=
  if c = 'q' then some 0 else if c = 'p' then some 1
  else if c = 'z' then some 2 else if c = 'r' then some 3
  else if c = 'y' then some 4 else if c = '9' then some 5
  else if c = 'x' then some 6 else if c = '8' then some 7
  else if c = 'g' then some 8 else if c = 'f' then some 9
  else if c = '2' then some 10 else if c = 't' then some 11
  else if c = 'v' then some 12 else if c = 'd' then some 13
  else if c = 'w' then some 14 else if c = '0' then some 15
  else if c = 's' then some 16 else if c = '3' then some 17
  else if c = 'j' then some 18 else if c = 'n' then some 19
  else if c = '5' then some 20 else if c = '4' then some 21
  else if c = 'k' then some 22 else if c = 'h' then some 23
  else if c = 'c' then some 24 else if c = 'e' then some 25
  else if c = '6' then some 26 else if c = 'm' then some 27
  else if c = 'u' then some 28 else if c = 'a' then some 29
  else if c = '7' then some 30 else if c = 'l' then some 31
  else none

/-- Modelled from the spec: one step of the bech32 checksum polymod
(BIP-173). -/
def bech32PolymodStep (chk v : Nat) : Nat :=
  let b := chk >>> 25
  let c := (((chk &&& 0x1ffffff) <<< 5) ^^^ v)
  let c := if b &&& 1 ≠ 0 then c ^^^ 0x3b6a57b2 else c
  let c := if b &&& 2 ≠ 0 then c ^^^ 0x26508e6d else c
  let c := if b &&& 4 ≠ 0 then c ^^^ 0x1ea119fa else c
  let c := if b &&& 8 ≠ 0 then c ^^^ 0x3d4233dd else c
  if b &&& 16 ≠ 0 then c ^^^ 0x2a1462b3 else c

/-- Modelled from the spec: the bech32 checksum polymod over a list of
5-bit values, starting from 1 (BIP-173). -/
def bech32Polymod (values : List Nat) : Nat :=
  values.foldl bech32PolymodStep 1

/-- Modelled from the spec: the human-readable-part expansion entering the
bech32 checksum (high bits, a zero, then low bits of each character). -/
def bech32HrpExpand (hrp : List Char) : List Nat :=
  hrp.map (fun c => c.toNat >>> 5) ++ [0] ++ hrp.map (fun c => c.toNat &&& 31)

/-- Splits a bech32 string (as a character list) at the LAST `1`
separator, returning (hrp characters, data characters). -/
def splitLastSep (cs : List Char) : Option (List Char × List Char) :=
  let r := cs.reverse
  if r.any (fun c => c = '1') then
    some (((r.dropWhile (fun c => c ≠ '1')).tail).reverse,
          (r.takeWhile (fun c => c ≠ '1')).reverse)
  else none

/-- Modelled from the spec: regrouping of 5-bit bech32 values into 8-bit
bytes without padding; fails when more than four bits are left over or the
leftover bits are not zero (BIP-173 `convert_bits`, pad = false).
The accumulator `acc` holds the `bits` pending low-order bits. -/
def convertBits5to8 (acc bits : Nat) : List Nat → Option (List Nat)
  | [] =>
      if 5 ≤ bits then none
      else if acc % 2 ^ bits ≠ 0 then none
      else some []
  | v :: rest =>
      let acc2 := ((acc <<< 5) ||| (v &&& 31))
      let bits2 := bits + 5
      if 8 ≤ bits2 then
        let bits3 := bits2 - 8
        let byte := (acc2 >>> bits3) &&& 255
        (convertBits5to8 (acc2 &&& (2 ^ bits3 - 1)) bits3 rest).map
          (fun bs => byte :: bs)
      else
        convertBits5to8 acc2 bits2 rest

/-- Modelled from the spec: `bech32::decode` of the bech32 crate (the Key
Codec external to the repository sources).  Checks character range, mixed
case, the separator, the data alphabet and the checksum (accepting both
the bech32 constant 1 and the bech32m constant), and regroups the payload
into bytes.  Returns the lower-cased human-readable part and the payload
bytes. -/
def bech32_decode (s : String) : Option (String × List Nat) :=
  let cs := s.data
  if cs.any (fun c => c.toNat < 33 ∨ 126 < c.toNat) then none
  else if (cs.any Char.isUpper ∧ cs.any Char.isLower) then none
  else
    let lower := cs.map Char.toLower
    match splitLastSep lower with
    | none => none
    | some (hrp, dataPart) =>
      if hrp.length = 0 ∨ 83 < hrp.length then none
      else if dataPart.length < 6 then none
      else
        match dataPart.mapM bech32CharValue with
        | none => none
        | some values =>
          let check := bech32Polymod (bech32HrpExpand hrp ++ values)
          if check ≠ 1 ∧ check ≠ 0x2bc830a3 then none
          else
            match convertBits5to8 0 0 (values.take (values.length - 6)) with
            | none => none
            | some bytes => some (String.mk hrp, bytes)

/-- The order of the secp256k1 group (modelled from the spec: the
secp256k1 library is an external collaborator). -/
def secpOrder : Nat :=
  0xFFFFFFFFFFFFFFFFFFFFFFFFFFFFFFFEBAAEDCE6AF48A03BBFD25E8CD0364141

/-- The field prime of secp256k1 (modelled from the spec). -/
def secpP : Nat :=
  0xFFFFFFFFFFFFFFFFFFFFFFFFFFFFFFFFFFFFFFFFFFFFFFFFFFFFFFFEFFFFFC2F

/-- Interprets a big-endian byte list as a natural number. -/
def beBytesToNat (bs : List Nat) : Nat :=
  bs.foldl (fun a b => a * 256 + b) 0

/-- Fuelled fast modular exponentiation (structural recursion so that the
kernel can evaluate it). -/
def modpowAux : Nat → Nat → Nat → Nat → Nat
  | 0, _, _, m => 1 % m
  | fuel + 1, b, e, m =>
      if e = 0 then 1 % m
      else
        let h := modpowAux fuel ((b * b) % m) (e / 2) m
        if e % 2 = 1 then (h * b) % m else h

/-- Modular exponentiation `b ^ e % m` for exponents below `2 ^ 300`. -/
def modpow (b e m : Nat) : Nat :=
  modpowAux 300 b e m

/-- Euler-criterion test that `c` is a square modulo the secp256k1 field
prime (modelled from the spec: used by x-only key validation). -/
def isSquareModSecpP (c : Nat) : Bool :=
  c % secpP = 0 || modpow (c % secpP) ((secpP - 1) / 2) secpP = 1

/-- Modelled from the spec: `secp256k1::SecretKey::from_slice`, which
requires exactly 32 bytes encoding a scalar in `[1, order)`. -/
def secpSecretKeyFromSlice (data : List Nat) : Option (List Nat) :=
  if data.length = 32 ∧ 0 < beBytesToNat data ∧ beBytesToNat data < secpOrder
  then some data
  else none

/-- Modelled from the spec: `XOnlyPublicKey::from_slice`, which requires
exactly 32 bytes encoding a field element `x` with `x ^ 3 + 7` a square
(a valid curve abscissa). -/
def xOnlyPublicKeyFromSlice (data : List Nat) : Option (List Nat) :=
  if data.length = 32 then
    let x := beBytesToNat data
    if x < secpP ∧ isSquareModSecpP ((x * x % secpP) * x % secpP + 7)
    then some data
    else none
  else none

/-- Embedding of `bitcoin::PrivateKey` as used by `util.rs`: the network
tag and the 32 secret-key bytes.  `to_bytes` is the `bytes` field. -/
structure PrivateKey where
  network : Network
  bytes : List Nat
deriving DecidableEq

/-- The hexadecimal digit character for `n < 16` (lower case). -/
def hexDigitChar (n : Nat) : Char :=
  if n < 10 then Char.ofNat (48 + n) else Char.ofNat (87 + n)

/-- Lower-case hex encoding of a byte list, as produced by
`hex::BytesToHexIter` in `util.rs`. -/
def bytesToHex (bs : List Nat) : String :=
  String.mk (bs.foldr (fun b acc => hexDigitChar (b / 16 % 16) :: hexDigitChar (b % 16) :: acc) [])

/-- Embedding of `nsec_to_secret_key` (`backend/src/util.rs`): bech32
decode, require the `nsec` prefix, build the secret key, attach the
network.  Each Rust panic (`expect` on the decode, wrong prefix, invalid
key data) is modelled as `none`. -/
def nsec_to_secret_key (nsec : String) (network : Network) : Option PrivateKey :=
  match bech32_decode nsec with
  | none => none
  | some (hrp, data) =>
    if hrp ≠ "nsec" then none
    else
      match secpSecretKeyFromSlice data with
      | none => none
      | some bytes => some ⟨network, bytes⟩

/-- Embedding of `convert_nsec_to_hex` (`backend/src/util.rs`): decode the
nsec and hex-encode the secret key bytes. -/
def convert_nsec_to_hex (nsec : String) (network : Network) : Option String :=
  (nsec_to_secret_key nsec network).map (fun sk => bytesToHex sk.bytes)

/-- Embedding of `nsec_to_hex` (`backend/src/util.rs`): map the network
tag string (panicking, i.e. `none`, on unrecognized tags) and convert. -/
def nsec_to_hex (nsec : String) (network : String) : Option String :=
  if network = "Mainnet" then convert_nsec_to_hex nsec Network.bitcoin
  else if network = "Testnet" then convert_nsec_to_hex nsec Network.testnet
  else if network = "Signet" then convert_nsec_to_hex nsec Network.signet
  else if network = "Mutinynet" then convert_nsec_to_hex nsec Network.signet
  else none

/-- Embedding of `bitcoin::PublicKey` as produced by `util.rs`: the
compressed SEC bytes (`to_bytes`). -/
structure BtcPublicKey where
  bytes : List Nat
deriving DecidableEq

/-- Embedding of `npub_to_public_key` (`backend/src/util.rs`): bech32
decode, require the `npub` prefix, parse the x-only key and force even
parity (compressed encoding `0x02 :: x`).  Rust panics are `none`. -/
def npub_to_public_key (npub : String) : Option BtcPublicKey :=
  match bech32_decode npub with
  | none => none
  | some (hrp, data) =>
    if hrp ≠ "npub" then none
    else
      match xOnlyPublicKeyFromSlice data with
      | none => none
      | some xbytes => some ⟨2 :: xbytes⟩

/-- Embedding of `npub_to_hex` (`backend/src/util.rs`). -/
def npub_to_hex (npub : String) : Option String :=
  (npub_to_public_key npub).map (fun pk => bytesToHex pk.bytes)

/-- Embedding of `check_npub_wasm` (`backend/src/util.rs`): panics
(`none`) when the input is not valid bech32, returns `false` on a wrong
prefix or payload length, `true` otherwise. -/
def check_npub_wasm (input : String) : Option Bool :=
  match bech32_decode input with
  | none => none
  | some (hrp, data) =>
    if hrp ≠ "npub" ∨ data.length ≠ 32 then some false else some true

/-- Embedding of `nostr::key::SecretKey` as an opaque 32-byte value. -/
structure NostrSecretKey where
  bytes : List Nat
deriving DecidableEq

/-- Embedding of `nostr::key::PublicKey` as an opaque 32-byte value. -/
structure NostrPublicKey where
  bytes : List Nat
deriving DecidableEq

/-- Embedding of `secp256k1::Keypair` as derived from an nsec in
`sign.rs` (`nsec.keypair(SECP256K1)`). -/
structure Keypair where
  secret : NostrSecretKey
deriving DecidableEq

/-- Embedding of `NostrSecretKey::keypair`. -/
def NostrSecretKey.keypair (k : NostrSecretKey) : Keypair :=
  ⟨k⟩

/-- Embedding of `bitcoin::taproot::LeafVersion` (only `TapScript` is
used). -/
inductive LeafVersion
  | tapScript
deriving DecidableEq

/-- The `EscrowScript` selector of `scripts.rs` (declared in the
repository; its definition is not under the available sources).  The test
suite uses variant `A` for the collaborative leaf; `B` stands for a
dispute leaf. -/
inductive EscrowScript
  | A
  | B
deriving DecidableEq

/-- The error type of the crate (`error.rs` is not under the available
sources); only the variant relevant to `escrow_scripts` failures is
modelled, following the spec's `MissingVariantParameter` kind. -/
inductive Error
  | missingVariantParameter
deriving DecidableEq

/-- Locking scripts, kept symbolic: either raw bytes or the escrow leaf
script determined by its parameters (byte-exact equality of the source is
modelled by constructor equality). -/
inductive Script
  | ofBytes (bs : List Nat)
  | escrowLeaf (p1 p2 : NostrPublicKey) (arb : Option NostrPublicKey)
      (timelock : Option Nat) (variant : EscrowScript)
deriving DecidableEq

/-- Modelled from the spec: `escrow_scripts` of `scripts.rs` (declared in
the repository, not under the available sources).  It deterministically
builds the leaf locking script for the selected variant and fails with
`MissingVariantParameter` when the dispute variant lacks the arbitrator or
the timelock. -/
def escrow_scripts (npub_1 npub_2 : NostrPublicKey)
    (npub_arbitrator : Option NostrPublicKey) (timelock_duration : Option Nat)
    (escrow_script : EscrowScript) : Except Error Script :=
  match escrow_script with
  | .A => .ok (.escrowLeaf npub_1 npub_2 npub_arbitrator timelock_duration .A)
  | .B =>
    match npub_arbitrator, timelock_duration with
    | some _, some _ =>
        .ok (.escrowLeaf npub_1 npub_2 npub_arbitrator timelock_duration .B)
    | _, _ => .error .missingVariantParameter

/-- Embedding of `bitcoin::TapLeafHash` as the pair it commits to. -/
structure TapLeafHash where
  script : Script
  version : LeafVersion
deriving DecidableEq

/-- Embedding of `TapLeafHash::from_script`. -/
def TapLeafHash.fromScript (s : Script) (v : LeafVersion) : TapLeafHash :=
  ⟨s, v⟩

/-- Embedding of `bitcoin::OutPoint`. -/
structure OutPoint where
  txid : Nat
  vout : Nat
deriving DecidableEq

/-- Embedding of `bitcoin::TxOut`. -/
structure TxOut where
  value : Nat
  script_pubkey : Script
deriving DecidableEq

/-- Embedding of `bitcoin::TapSighashType` (only `All` is used). -/
inductive SighashType
  | all
deriving DecidableEq

/-- The key handed to the Schnorr signing call, kept symbolic: either the
raw keypair or the keypair after the BIP341 output-key tweak
(`tap_tweak(SECP256K1, merkle_root)` followed by `to_inner()`). -/
inductive SigningKey
  | fromKeypair (kp : Keypair)
  | tapTweakedKeypair (kp : Keypair) (merkle_root : Option Nat)
deriving DecidableEq

/-- The input-side data of a transaction input that the taproot sighash
commits to (the witness is not part of it). -/
structure TxInData where
  previous_output : OutPoint
  sequence : Nat
deriving DecidableEq

/-- The transaction data the taproot sighash commits to. -/
structure TxData where
  version : Int
  lock_time : Nat
  inputs : List TxInData
  outputs : List TxOut
deriving DecidableEq

/-- Modelled from the spec: a sighash digest of the BIP341/342 engine,
kept symbolic as the data it commits to (key-path has no leaf-hash
component; script-path includes the leaf hash). -/
inductive Digest
  | keySpend (tx : TxData) (index : Nat) (prevouts : List TxOut)
      (sighashType : SighashType)
  | scriptSpend (tx : TxData) (index : Nat) (prevouts : List TxOut)
      (leaf : TapLeafHash) (sighashType : SighashType)
deriving DecidableEq

/-- Modelled from the spec: a Schnorr signature of the deterministic-nonce
scheme, determined by (and recording) the signing key and the digest. -/
structure SchnorrSignature where
  key : SigningKey
  msg : Digest
deriving DecidableEq

/-- Modelled from the spec: the deterministic-nonce Schnorr signing call
`SECP256K1.sign_schnorr(message, key)`. -/
def sign_schnorr (msg : Digest) (key : SigningKey) : SchnorrSignature :=
  ⟨key, msg⟩

/-- Embedding of `bitcoin::taproot::Signature` (a Schnorr signature paired
with its sighash type). -/
structure TaprootSignature where
  signature : SchnorrSignature
  sighash_type : SighashType
deriving DecidableEq

/-- Embedding of `bitcoin::taproot::ControlBlock` as its serialized
bytes. -/
structure ControlBlock where
  bytes : List Nat
deriving DecidableEq

/-- One element of a witness stack, kept symbolic: the serialization of a
signature, of a locking script, or of a control block. -/
inductive WitnessElem
  | sigBytes (sig : TaprootSignature)
  | scriptBytes (s : Script)
  | controlBlockBytes (cb : ControlBlock)
deriving DecidableEq

/-- Embedding of `bitcoin::TxIn`. -/
structure TxIn where
  previous_output : OutPoint
  script_sig : Script
  sequence : Nat
  witness : List WitnessElem
deriving DecidableEq

/-- Embedding of `bitcoin::Transaction`. -/
structure Transaction where
  version : Int
  lock_time : Nat
  input : List TxIn
  output : List TxOut
deriving DecidableEq

/-- The sighash-committed data of a transaction (witnesses stripped). -/
def Transaction.data (tx : Transaction) : TxData :=
  ⟨tx.version, tx.lock_time,
   tx.input.map (fun i => ⟨i.previous_output, i.sequence⟩), tx.output⟩

/-- The error cases of the sighash engine relevant to `Prevouts::All`
(modelled from the spec's `SighashComputationError`). -/
inductive SighashError
  | prevoutsSize
  | indexOutOfRange
deriving DecidableEq

/-- Modelled from the spec: `SighashCache::taproot_key_spend_signature_hash`
with `Prevouts::All` — fails when the prevout list does not cover every
input of the transaction or the input index is out of range, and otherwise
deterministically yields the BIP341 key-path digest. -/
def taproot_key_spend_signature_hash (tx : Transaction) (index : Nat)
    (prevouts : List TxOut) (ty : SighashType) : Except SighashError Digest :=
  if prevouts.length ≠ tx.input.length then .error .prevoutsSize
  else if tx.input.length ≤ index then .error .indexOutOfRange
  else .ok (.keySpend tx.data index prevouts ty)

/-- Modelled from the spec: `SighashCache::taproot_script_spend_signature_hash`
with `Prevouts::All` — same failure cases, and the digest additionally
commits to the leaf hash (BIP342 extension). -/
def taproot_script_spend_signature_hash (tx : Transaction) (index : Nat)
    (prevouts : List TxOut) (leaf : TapLeafHash) (ty : SighashType) :
    Except SighashError Digest :=
  if prevouts.length ≠ tx.input.length then .error .prevoutsSize
  else if tx.input.length ≤ index then .error .indexOutOfRange
  else .ok (.scriptSpend tx.data index prevouts leaf ty)

/-- `modifyIdx l i f` applies `f` to the element of `l` at position `i`
(the effect of a Rust `l[i] = ...` style update). -/
def modifyIdx : List α → Nat → (α → α) → List α
  | [], _, _ => []
  | x :: xs, 0, f => f x :: xs
  | x :: xs, n + 1, f => x :: modifyIdx xs n f

/-- Embedding of `sign_resolution_tx` (`src/sign.rs`): computes the
key-path sighash for input 0 with the single prevout (the `expect` on a
failed sighash, i.e. a Rust panic, is modelled as `none`), signs the
digest with the BIP341-tweaked keypair (no script tree), and replaces
input 0's witness with the single-element key-spend witness. -/
def sign_resolution_tx (transaction : Transaction) (nsec : NostrSecretKey)
    (prevout : TxOut) : Option Transaction :=
  let keypair := nsec.keypair
  match taproot_key_spend_signature_hash transaction 0 [prevout] .all with
  | .error _ => none
  | .ok sighash =>
    let signature := sign_schnorr sighash (.tapTweakedKeypair keypair none)
    let signature : TaprootSignature := ⟨signature, .all⟩
    some { transaction with
           input := modifyIdx transaction.input 0
             (fun txin => { txin with witness := [.sigBytes signature] }) }

/-- Embedding of `sign_escrow_tx` (`src/sign.rs`): builds the escrow
locking script (propagating its error to the caller via `?`), computes
the script-path sighash (the `unwrap` on a failed sighash, i.e. a Rust
panic, is modelled as the outer `none`), and signs the digest with the
raw untweaked keypair. -/
def sign_escrow_tx (tx : Transaction) (index : Nat) (nsec : NostrSecretKey)
    (npub_1 npub_2 : NostrPublicKey) (npub_arbitrator : Option NostrPublicKey)
    (timelock_duration : Option Nat) (prevouts : List TxOut)
    (escrow_script : EscrowScript) : Option (Except Error TaprootSignature) :=
  let keypair := nsec.keypair
  match escrow_scripts npub_1 npub_2 npub_arbitrator timelock_duration
      escrow_script with
  | .error e => some (.error e)
  | .ok locking_script =>
    let leaf_hash := TapLeafHash.fromScript locking_script .tapScript
    match taproot_script_spend_signature_hash tx index prevouts leaf_hash
        .all with
    | .error _ => none
    | .ok sighash =>
      let signature := sign_schnorr sighash (.fromKeypair keypair)
      some (.ok ⟨signature, .all⟩)

/-- Appends one element to the witness of input `index` (the effect of
`transaction.input[index].witness.push(..)` in `sign.rs`). -/
def pushWitness (tx : Transaction) (index : Nat) (e : WitnessElem) :
    Transaction :=
  { tx with
    input := modifyIdx tx.input index
      (fun txin => { txin with witness := txin.witness ++ [e] }) }

/-- Embedding of `combine_signatures` (`src/sign.rs`): pushes each
signature's serialization in the given order, then the locking-script
bytes, then the control-block bytes, onto input `index`'s witness.  The
Rust indexing panic on an out-of-range index is modelled as `none`. -/
def combine_signatures (transaction : Transaction) (index : Nat)
    (signatures : List TaprootSignature) (locking_script : Script)
    (control_block : ControlBlock) : Option Transaction :=
  if index < transaction.input.length then
    let t1 := signatures.foldl
      (fun t s => pushWitness t index (.sigBytes s)) transaction
    let t2 := pushWitness t1 index (.scriptBytes locking_script)
    some (pushWitness t2 index (.controlBlockBytes control_block))
  else none

/-- A concrete nsec value used to instantiate the theorems. -/
def sampleNsec : NostrSecretKey :=
  ⟨[1]⟩

/-- A concrete participant key used to instantiate the theorems. -/
def sampleNpub1 : NostrPublicKey :=
  ⟨[2]⟩

/-- A concrete participant key used to instantiate the theorems. -/
def sampleNpub2 : NostrPublicKey :=
  ⟨[3]⟩

/-- A concrete locking script used to instantiate the theorems. -/
def sampleScript : Script :=
  .ofBytes [81]

/-- A concrete control block used to instantiate the theorems. -/
def sampleControlBlock : ControlBlock :=
  ⟨[192]⟩

/-- A concrete transaction input used to instantiate the theorems. -/
def sampleTxIn : TxIn :=
  ⟨⟨7, 0⟩, .ofBytes [], 0xFFFFFFFF, []⟩

/-- A concrete prevout used to instantiate the theorems. -/
def samplePrevout : TxOut :=
  ⟨50000, .ofBytes [81]⟩

/-- A concrete single-input transaction used to instantiate the
theorems. -/
def sampleTx1 : Transaction :=
  ⟨2, 0, [sampleTxIn], [⟨40000, .ofBytes [82]⟩]⟩

/-- A concrete two-input transaction used to instantiate the theorems. -/
def sampleTx2 : Transaction :=
  ⟨2, 0, [sampleTxIn, sampleTxIn], [⟨40000, .ofBytes [82]⟩]⟩

/-- A concrete taproot signature used to instantiate the theorems. -/
def sampleSignature : TaprootSignature :=
  ⟨⟨.fromKeypair sampleNsec.keypair,
    .scriptSpend sampleTx1.data 0 [samplePrevout] ⟨sampleScript, .tapScript⟩
      .all⟩, .all⟩

/-- The key-path-signed form of `sampleTx1`. -/
def sampleResolutionSigned : Transaction :=
  (sign_resolution_tx sampleTx1 sampleNsec samplePrevout).getD sampleTx1

/-- The result of assembling one signature, script and control block into
`sampleTx1`. -/
def sampleCombined : Transaction :=
  (combine_signatures sampleTx1 0 [sampleSignature] sampleScript
    sampleControlBlock).getD sampleTx1

/-! Helper lemmas about `modifyIdx` and the witness-pushing fold. -/

theorem modifyIdx_length (l : List α) (i : Nat) (f : α → α) :
    (modifyIdx l i f).length = l.length := by
  induction l generalizing i with
  | nil => rfl
  | cons x xs ih =>
    cases i with
    | zero => rfl
    | succ n => simp [modifyIdx, ih]

theorem getElem?_modifyIdx_self (l : List α) (i : Nat) (f : α → α) :
    (modifyIdx l i f)[i]? = l[i]?.map f := by
  induction l generalizing i with
  | nil => simp [modifyIdx]
  | cons x xs ih =>
    cases i with
    | zero => simp [modifyIdx]
    | succ n => simpa [modifyIdx] using ih n

theorem getElem?_modifyIdx_ne (l : List α) (i j : Nat) (f : α → α)
    (h : j ≠ i) : (modifyIdx l i f)[j]? = l[j]? := by
  induction l generalizing i j with
  | nil => simp [modifyIdx]
  | cons x xs ih =>
    cases i with
    | zero =>
      cases j with
      | zero => exact absurd rfl h
      | succ m => simp [modifyIdx]
    | succ n =>
      cases j with
      | zero => simp [modifyIdx]
      | succ m =>
        simpa [modifyIdx] using ih n m (fun hh => h (by rw [hh]))

theorem modifyIdx_modifyIdx (l : List α) (i : Nat) (f g : α → α) :
    modifyIdx (modifyIdx l i f) i g = modifyIdx l i (fun a => g (f a)) := by
  induction l generalizing i with
  | nil => rfl
  | cons x xs ih =>
    cases i with
    | zero => rfl
    | succ n => simp [modifyIdx, ih]

theorem modifyIdx_id (l : List α) (i : Nat) :
    modifyIdx l i (fun a => a) = l := by
  induction l generalizing i with
  | nil => rfl
  | cons x xs ih =>
    cases i with
    | zero => rfl
    | succ n => simp [modifyIdx, ih]

theorem foldl_pushWitness_sigBytes (i : Nat) (sigs : List TaprootSignature) :
    ∀ tx : Transaction,
      sigs.foldl (fun t s => pushWitness t i (WitnessElem.sigBytes s)) tx =
        { tx with input := modifyIdx tx.input i (fun txin =>
            { txin with
              witness := txin.witness ++ sigs.map WitnessElem.sigBytes }) } := by
  induction sigs with
  | nil =>
    intro tx
    simp [pushWitness, modifyIdx_id]
  | cons s rest ih =>
    intro tx
    rw [List.foldl_cons, ih (pushWitness tx i (WitnessElem.sigBytes s))]
    simp [pushWitness, modifyIdx_modifyIdx, List.append_assoc]

/-- Characterization of a successful `sign_resolution_tx` call: the
transaction has at least one input and the result replaces input 0's
witness with the single key-spend signature over the tweaked keypair. -/
theorem sign_resolution_tx_eq_some (tx : Transaction)
    (nsec : NostrSecretKey) (prevout : TxOut) (tx' : Transaction)
    (h : sign_resolution_tx tx nsec prevout = some tx') :
    0 < tx.input.length ∧
    tx' = { tx with input := modifyIdx tx.input 0 (fun txin =>
      { txin with witness := [WitnessElem.sigBytes
          ⟨sign_schnorr (Digest.keySpend tx.data 0 [prevout] .all)
            (.tapTweakedKeypair nsec.keypair none), .all⟩] }) } := by
  unfold sign_resolution_tx taproot_key_spend_signature_hash at h
  split at h
  · exact Option.noConfusion h
  next d heq =>
    split at heq
    · exact Except.noConfusion heq
    · split at heq
      · exact Except.noConfusion heq
      next hc2 =>
        injection heq with heq
        subst heq
        injection h with h
        exact ⟨Nat.lt_of_not_le hc2, h.symm⟩

/-- Characterization of a `sign_escrow_tx` call returning `Ok`: the
escrow script was built and the signature is the Schnorr signature of
the script-path digest under the raw untweaked keypair. -/
theorem sign_escrow_tx_eq_ok (tx : Transaction) (index : Nat)
    (nsec : NostrSecretKey) (npub_1 npub_2 : NostrPublicKey)
    (arb : Option NostrPublicKey) (tl : Option Nat) (prevouts : List TxOut)
    (es : EscrowScript) (sig : TaprootSignature)
    (h : sign_escrow_tx tx index nsec npub_1 npub_2 arb tl prevouts es =
      some (Except.ok sig)) :
    ∃ ls : Script, escrow_scripts npub_1 npub_2 arb tl es = .ok ls ∧
      sig = ⟨sign_schnorr
        (Digest.scriptSpend tx.data index prevouts ⟨ls, .tapScript⟩ .all)
        (.fromKeypair nsec.keypair), .all⟩ := by
  unfold sign_escrow_tx at h
  split at h
  next e heq =>
    injection h with h
    exact Except.noConfusion h
  next ls heq =>
    by_cases hp : prevouts.length ≠ tx.input.length
    · simp [taproot_script_spend_signature_hash, hp] at h
    · by_cases hi : tx.input.length ≤ index
      · simp [taproot_script_spend_signature_hash, hp, hi] at h
      · simp only [taproot_script_spend_signature_hash, if_neg hp,
          if_neg hi, Option.some.injEq] at h
        exact ⟨ls, heq, (Except.ok.inj h).symm⟩

/-! Claim theorems. -/

/-- C5 (counterexample): the identity `days_to_blocks d = 144 * d` fails
as stated for all non-negative integers: at `d = 2 ^ 60` the `usize`
product `144 * 2 ^ 60 = 9 * 2 ^ 64` wraps to `0`. -/
theorem days_to_blocks_overflow_cex :
    ¬ days_to_blocks (2 ^ 60) = 144 * 2 ^ 60 := by
  decide

/-- C5 (amended): for all `d, h` whose block counts fit in the 64-bit
`usize` width, `days_to_blocks d = 144 * d`, `hours_to_blocks h = 6 * h`
and `days_hours_to_blocks d h = 144 * d + 6 * h`. -/
theorem block_conversions_exact (d h : Nat) (hd : 144 * d < 2 ^ 64)
    (hh : 6 * h < 2 ^ 64) (hdh : 144 * d + 6 * h < 2 ^ 64) :
    days_to_blocks d = 144 * d ∧ hours_to_blocks h = 6 * h ∧
    days_hours_to_blocks d h = 144 * d + 6 * h := by
  simp only [days_hours_to_blocks, days_to_blocks, hours_to_blocks]
  omega

/-- C5 (witness): the amended statement at `d = 2`, `h = 3`. -/
theorem block_conversions_exact_witness :
    days_to_blocks 2 = 144 * 2 ∧ hours_to_blocks 3 = 6 * 3 ∧
    days_hours_to_blocks 2 3 = 144 * 2 + 6 * 3 :=
  block_conversions_exact 2 3 (by decide) (by decide) (by decide)

/-- C3: signing is deterministic — two calls to the key-path signer with
identical `(transaction, secret key, prevout)`, or two calls to the
script-path signer with identical arguments, produce identical
signatures (the embedded signing primitive, modelled from the spec's
deterministic-nonce requirement, has no hidden input). -/
theorem signing_deterministic :
    (∀ (tx : Transaction) (nsec : NostrSecretKey) (prevout : TxOut),
       sign_resolution_tx tx nsec prevout = sign_resolution_tx tx nsec prevout)
    ∧ (∀ (tx : Transaction) (index : Nat) (nsec : NostrSecretKey)
        (npub_1 npub_2 : NostrPublicKey) (arb : Option NostrPublicKey)
        (tl : Option Nat) (prevouts : List TxOut) (es : EscrowScript),
       sign_escrow_tx tx index nsec npub_1 npub_2 arb tl prevouts es =
         sign_escrow_tx tx index nsec npub_1 npub_2 arb tl prevouts es) :=
  ⟨fun _ _ _ => rfl, fun _ _ _ _ _ _ _ _ _ => rfl⟩

/-- C6: the known test vectors decode exactly — the nsec string yields
secret-key hex `c8b7...176f`, and the npub string yields the
even-parity-prefixed public-key hex `027e...df4e`. -/
theorem key_codec_test_vectors :
    convert_nsec_to_hex
        "nsec1ezmlpxvhhjnqt9wf60tmshkye7xlwsf37dl0qlmrjuxeq7p3zahs2tukgx"
        Network.bitcoin =
      some "c8b7f09997bca60595c9d3d7b85ec4cf8df74131f37ef07f63970d907831176f"
    ∧ npub_to_hex
        "npub10elfcs4fr0l0r8af98jlmgdh9c8tcxjvz9qkw038js35mp4dma8qzvjptg" =
      some "027e7e9c42a91bfef19fa929e5fda1b72e0ebc1a4c1141673e2794234d86addf4e" := by
  constructor <;> decide

/-- C7: the network-tag conversion maps exactly `Mainnet`, `Testnet`,
`Signet` and `Mutinynet` (the last to the same profile as `Signet`), and
every other tag is a hard input error (`none`) — both in
`convert_network_to_typed` and in `nsec_to_hex`'s own tag dispatch. -/
theorem network_tag_conversion :
    convert_network_to_typed "Mainnet" = some Network.bitcoin
    ∧ convert_network_to_typed "Testnet" = some Network.testnet
    ∧ convert_network_to_typed "Signet" = some Network.signet
    ∧ convert_network_to_typed "Mutinynet" = convert_network_to_typed "Signet"
    ∧ (∀ s : String, s ≠ "Mainnet" → s ≠ "Testnet" → s ≠ "Signet" →
        s ≠ "Mutinynet" →
        convert_network_to_typed s = none
        ∧ ∀ nsec : String, nsec_to_hex nsec s = none) := by
  refine ⟨rfl, rfl, rfl, rfl, ?_⟩
  intro s h1 h2 h3 h4
  constructor
  · simp [convert_network_to_typed, h1, h2, h3, h4]
  · intro nsec
    simp [nsec_to_hex, h1, h2, h3, h4]

/-- C7 (witness): the tag `Regtest` is rejected by both functions. -/
theorem network_tag_conversion_witness :
    convert_network_to_typed "Regtest" = none
    ∧ nsec_to_hex "nsec1" "Regtest" = none :=
  ⟨(network_tag_conversion.2.2.2.2 "Regtest" (by decide) (by decide)
      (by decide) (by decide)).1,
   (network_tag_conversion.2.2.2.2 "Regtest" (by decide) (by decide)
      (by decide) (by decide)).2 "nsec1"⟩

/-- C10: the network argument does not influence the key bytes recovered
from an nsec string — `nsec_to_secret_key` yields the same 32 bytes and
`convert_nsec_to_hex` the same hex string for any two networks. -/
theorem nsec_decoding_network_independent (nsec : String)
    (n1 n2 : Network) :
    (nsec_to_secret_key nsec n1).map PrivateKey.bytes =
      (nsec_to_secret_key nsec n2).map PrivateKey.bytes
    ∧ convert_nsec_to_hex nsec n1 = convert_nsec_to_hex nsec n2 := by
  unfold convert_nsec_to_hex nsec_to_secret_key
  cases hdec : bech32_decode nsec with
  | none => simp
  | some p =>
    obtain ⟨hrp, data⟩ := p
    by_cases hh : hrp ≠ "nsec"
    · simp [hh]
    · cases hsk : secpSecretKeyFromSlice data <;> simp [hh, hsk]

/-- C2: for every transaction, in-range input index, signature list,
locking script and control block, `combine_signatures` appends to input
`index`'s witness exactly the signatures' serializations in the
caller-supplied order, then the locking-script bytes, then the
control-block bytes — no reordering and no validation (it succeeds on
arbitrary signature lists). -/
theorem combine_signatures_appends_in_order (tx : Transaction)
    (index : Nat) (sigs : List TaprootSignature) (ls : Script)
    (cb : ControlBlock) (tx' : Transaction)
    (h : combine_signatures tx index sigs ls cb = some tx') :
    tx'.input[index]? = tx.input[index]?.map (fun txin =>
      { txin with witness := txin.witness
          ++ sigs.map WitnessElem.sigBytes
          ++ [WitnessElem.scriptBytes ls,
              WitnessElem.controlBlockBytes cb] }) := by
  unfold combine_signatures at h
  split at h
  · rw [foldl_pushWitness_sigBytes] at h
    injection h with h
    subst h
    simp only [pushWitness, modifyIdx_modifyIdx, getElem?_modifyIdx_self]
    cases tx.input[index]? <;> simp [List.append_assoc]
  · exact Option.noConfusion h

/-- C2 (witness): the theorem applied to `sampleTx1` at index 0 with one
signature. -/
theorem combine_signatures_appends_in_order_witness :
    sampleCombined.input[0]? = sampleTx1.input[0]?.map (fun txin =>
      { txin with witness := txin.witness
          ++ [sampleSignature].map WitnessElem.sigBytes
          ++ [WitnessElem.scriptBytes sampleScript,
              WitnessElem.controlBlockBytes sampleControlBlock] }) :=
  combine_signatures_appends_in_order sampleTx1 0 [sampleSignature]
    sampleScript sampleControlBlock sampleCombined (by decide)

/-- C9: signing and witness assembly modify only the targeted input's
witness — `sign_resolution_tx` preserves version, lock time, outputs and
every input except input 0, whose witness becomes the single-element
key-spend witness (its other fields unchanged); `combine_signatures`
preserves everything except input `index`'s witness, to which it appends. -/
theorem signing_frame_effects :
    (∀ (tx : Transaction) (nsec : NostrSecretKey) (prevout : TxOut)
       (tx' : Transaction), sign_resolution_tx tx nsec prevout = some tx' →
       tx'.version = tx.version ∧ tx'.lock_time = tx.lock_time ∧
       tx'.output = tx.output ∧ tx'.input.length = tx.input.length ∧
       (∀ j : Nat, j ≠ 0 → tx'.input[j]? = tx.input[j]?) ∧
       tx'.input[0]? = tx.input[0]?.map (fun txin =>
         { txin with witness := [WitnessElem.sigBytes
             ⟨sign_schnorr (Digest.keySpend tx.data 0 [prevout] .all)
                (.tapTweakedKeypair nsec.keypair none), .all⟩] }))
    ∧ (∀ (tx : Transaction) (index : Nat) (sigs : List TaprootSignature)
        (ls : Script) (cb : ControlBlock) (tx' : Transaction),
        combine_signatures tx index sigs ls cb = some tx' →
        tx'.version = tx.version ∧ tx'.lock_time = tx.lock_time ∧
        tx'.output = tx.output ∧ tx'.input.length = tx.input.length ∧
        (∀ j : Nat, j ≠ index → tx'.input[j]? = tx.input[j]?) ∧
        tx'.input[index]? = tx.input[index]?.map (fun txin =>
          { txin with witness := txin.witness
              ++ sigs.map WitnessElem.sigBytes
              ++ [WitnessElem.scriptBytes ls,
                  WitnessElem.controlBlockBytes cb] })) := by
  constructor
  · intro tx nsec prevout tx' h
    obtain ⟨hlen, rfl⟩ := sign_resolution_tx_eq_some tx nsec prevout tx' h
    refine ⟨rfl, rfl, rfl, modifyIdx_length _ _ _, ?_, ?_⟩
    · intro j hj
      exact getElem?_modifyIdx_ne _ _ _ _ hj
    · exact getElem?_modifyIdx_self _ _ _
  · intro tx index sigs ls cb tx' h
    unfold combine_signatures at h
    split at h
    · rw [foldl_pushWitness_sigBytes] at h
      injection h with h
      subst h
      refine ⟨rfl, rfl, rfl, ?_, ?_, ?_⟩
      · simp [pushWitness, modifyIdx_length]
      · intro j hj
        simp only [pushWitness]
        rw [getElem?_modifyIdx_ne _ _ _ _ hj, getElem?_modifyIdx_ne _ _ _ _ hj,
          getElem?_modifyIdx_ne _ _ _ _ hj]
      · simp only [pushWitness, modifyIdx_modifyIdx]
        rw [getElem?_modifyIdx_self]
        cases tx.input[index]? <;> simp [List.append_assoc]
    · exact Option.noConfusion h

/-- C9 (witness): the combine part of the theorem applied to `sampleTx1`,
projected to the version and lock-time components. -/
theorem signing_frame_effects_witness :
    sampleCombined.version = sampleTx1.version ∧
    sampleCombined.lock_time = sampleTx1.lock_time :=
  ⟨(signing_frame_effects.2 sampleTx1 0 [sampleSignature] sampleScript
      sampleControlBlock sampleCombined (by decide)).1,
   (signing_frame_effects.2 sampleTx1 0 [sampleSignature] sampleScript
      sampleControlBlock sampleCombined (by decide)).2.1⟩

/-- C1: the key-path signer signs with the BIP341-tweaked keypair (no
script tree), so the signature placed in the witness records the tweaked
key; the script-path signer signs with the raw untweaked keypair. -/
theorem signers_key_usage :
    (∀ (tx : Transaction) (nsec : NostrSecretKey) (prevout : TxOut)
       (tx' : Transaction), sign_resolution_tx tx nsec prevout = some tx' →
       ∃ txin : TxIn, tx'.input[0]? = some txin ∧
         txin.witness = [WitnessElem.sigBytes
           ⟨⟨SigningKey.tapTweakedKeypair nsec.keypair none,
             Digest.keySpend tx.data 0 [prevout] SighashType.all⟩,
            SighashType.all⟩])
    ∧ (∀ (tx : Transaction) (index : Nat) (nsec : NostrSecretKey)
        (npub_1 npub_2 : NostrPublicKey) (arb : Option NostrPublicKey)
        (tl : Option Nat) (prevouts : List TxOut) (es : EscrowScript)
        (sig : TaprootSignature),
        sign_escrow_tx tx index nsec npub_1 npub_2 arb tl prevouts es =
          some (Except.ok sig) →
        sig.signature.key = SigningKey.fromKeypair nsec.keypair) := by
  constructor
  · intro tx nsec prevout tx' h
    obtain ⟨hlen, rfl⟩ := sign_resolution_tx_eq_some tx nsec prevout tx' h
    refine ⟨{ tx.input[0] with witness := [WitnessElem.sigBytes
      ⟨⟨SigningKey.tapTweakedKeypair nsec.keypair none,
        Digest.keySpend tx.data 0 [prevout] SighashType.all⟩,
       SighashType.all⟩] }, ?_, rfl⟩
    rw [getElem?_modifyIdx_self, List.getElem?_eq_getElem hlen]
    rfl
  · intro tx index nsec npub_1 npub_2 arb tl prevouts es sig h
    obtain ⟨ls, hls, rfl⟩ :=
      sign_escrow_tx_eq_ok tx index nsec npub_1 npub_2 arb tl prevouts es
        sig h
    rfl

/-- C1 (witness): the key-path part of the theorem applied to
`sampleTx1`. -/
theorem signers_key_usage_witness :
    ∃ txin : TxIn, sampleResolutionSigned.input[0]? = some txin ∧
      txin.witness = [WitnessElem.sigBytes
        ⟨⟨SigningKey.tapTweakedKeypair sampleNsec.keypair none,
          Digest.keySpend sampleTx1.data 0 [samplePrevout] SighashType.all⟩,
         SighashType.all⟩] :=
  signers_key_usage.1 sampleTx1 sampleNsec samplePrevout
    sampleResolutionSigned (by decide)

/-- C4 (code evaluation at the failing inputs): when the prevout list
does not cover every input (`sampleTx2` has two inputs, one prevout) or
the input index is out of range (index 5 of a one-input transaction), the
underlying sighash computation returns an explicit error, but
`sign_resolution_tx` and `sign_escrow_tx` unwrap it and abort (modelled
as `none`) instead of returning the error to the caller. -/
theorem sighash_failure_aborts :
    taproot_key_spend_signature_hash sampleTx2 0 [samplePrevout]
        SighashType.all = Except.error SighashError.prevoutsSize
    ∧ sign_resolution_tx sampleTx2 sampleNsec samplePrevout = none
    ∧ taproot_script_spend_signature_hash sampleTx1 5 [samplePrevout]
        (TapLeafHash.fromScript sampleScript LeafVersion.tapScript)
        SighashType.all = Except.error SighashError.indexOutOfRange
    ∧ sign_escrow_tx sampleTx1 5 sampleNsec sampleNpub1 sampleNpub2 none
        none [samplePrevout] EscrowScript.A = none := by
  refine ⟨rfl, rfl, rfl, rfl⟩

/-- C8: bech32 key decoding fails (the Rust code panics, modelled as
`none`) when the human-readable prefix is not the expected `npub` /
`nsec` or the decoded payload is not 32 bytes; and `check_npub_wasm`
accepts a string exactly when it is well-formed bech32 with prefix
`npub` and a 32-byte payload. -/
theorem bech32_key_decoding_validation (s : String) (net : Network) :
    (check_npub_wasm s = some true ↔
      ∃ data : List Nat, bech32_decode s = some ("npub", data) ∧
        data.length = 32)
    ∧ (∀ (hrp : String) (data : List Nat),
        bech32_decode s = some (hrp, data) →
        hrp ≠ "npub" ∨ data.length ≠ 32 → npub_to_public_key s = none)
    ∧ (∀ (hrp : String) (data : List Nat),
        bech32_decode s = some (hrp, data) →
        hrp ≠ "nsec" ∨ data.length ≠ 32 →
        nsec_to_secret_key s net = none) := by
  refine ⟨?_, ?_, ?_⟩
  · cases hdec : bech32_decode s with
    | none => simp [check_npub_wasm, hdec]
    | some p =>
      obtain ⟨hrp, data⟩ := p
      by_cases hh : hrp = "npub"
      · subst hh
        by_cases hl : data.length = 32
        · simp [check_npub_wasm, hdec, hl]
        · simp [check_npub_wasm, hdec, hl]
      · simp [check_npub_wasm, hdec, hh]
  · intro hrp data hdec hbad
    rcases hbad with hb | hb
    · simp [npub_to_public_key, hdec, hb]
    · by_cases hh : hrp ≠ "npub"
      · simp [npub_to_public_key, hdec, hh]
      · push_neg at hh
        subst hh
        simp [npub_to_public_key, hdec, xOnlyPublicKeyFromSlice, hb]
  · intro hrp data hdec hbad
    rcases hbad with hb | hb
    · simp [nsec_to_secret_key, hdec, hb]
    · by_cases hh : hrp ≠ "nsec"
      · simp [nsec_to_secret_key, hdec, hh]
      · push_neg at hh
        subst hh
        simp [nsec_to_secret_key, hdec, secpSecretKeyFromSlice, hb]

/-- C8 (witness): the accepting direction at the repository's own npub
test vector. -/
theorem bech32_key_decoding_validation_witness :
    check_npub_wasm
      "npub10elfcs4fr0l0r8af98jlmgdh9c8tcxjvz9qkw038js35mp4dma8qzvjptg" =
      some true :=
  (bech32_key_decoding_validation
      "npub10elfcs4fr0l0r8af98jlmgdh9c8tcxjvz9qkw038js35mp4dma8qzvjptg"
      Network.bitcoin).1.mpr
    ⟨[126, 126, 156, 66, 169, 27, 254, 241, 159, 169, 41, 229, 253, 161,
      183, 46, 14, 188, 26, 76, 17, 65, 103, 62, 39, 148, 35, 77, 134,
      173, 223, 78], by decide, by decide⟩

end Scrow
